import Mathlib

/-!
# Verification of the in-place file-editing library

A shallow embedding of the `in_place` Rust crate (src/lib.rs).  Paths are
modelled as absolute/relative flags plus component lists (Unix `Path`
semantics for the operations the crate uses: `file_name`, `with_file_name`,
`with_extension`, `parent`, `join`, `is_absolute`).  The filesystem is an
association list from paths to file data (content plus permission bits);
fallible OS calls (current_dir, canonicalize, temp-file creation,
set_permissions, open-for-read, the renames performed by save and the
deletion performed by discard) are driven by explicit environment records
whose boolean fields say whether the OS lets each call succeed.  `rename`
additionally fails deterministically when its source does not exist, and a
temp-file creation fails if the chosen name is already taken (O_EXCL).

Dropping a `NamedTempFile` deletes the underlying file; `save` consumes the
session, so every early-error return of `save` (and of `open` after the temp
file has been created) removes the temporary file again, exactly as the
crate's own tests observe (tests.rs, `delete_backup`).
-/

namespace InPlaceRs

/-- One component of a Unix path: either `..` or a normal file/directory
name (assumed to be nonempty, not `.` or `..`, and free of slashes). -/
inductive Component where
  | parentDir : Component
  | normal : String → Component
deriving DecidableEq

/-- A Unix path: an absolute flag plus the list of components, mirroring
what `std::path::Path::components` yields (`.` components are already
normalized away; `RootDir` is the `abs` flag). -/
structure UPath where
  abs : Bool
  comps : List Component
deriving DecidableEq

/-- The empty path, `Path::new("")`. -/
def UPath.empty : UPath := ⟨false, []⟩

/-- `Path::is_absolute`. -/
def UPath.isAbsolute (p : UPath) : Bool := p.abs

/-- `Path::file_name`: the last component if it is a normal one, `None` for
the empty path, a root, or a path ending in `..`. -/
def UPath.fileName (p : UPath) : Option String :=
  match p.comps.getLast? with
  | some (Component.normal s) => some s
  | _ => none

/-- `Path::parent`: the path without its final component; `None` when there
is no component to drop (root or empty path). -/
def UPath.parent (p : UPath) : Option UPath :=
  match p.comps with
  | [] => none
  | _ => some ⟨p.abs, p.comps.dropLast⟩

/-- `Path::join` with a single-component or multi-component right operand:
if the right path is absolute it replaces the left one. -/
def UPath.join (p q : UPath) : UPath :=
  if q.abs then q else ⟨p.abs, p.comps ++ q.comps⟩

/-- `PathBuf::set_file_name` semantics, for `Path::with_file_name`: pop the
file name if there is one, then push the new name (modelled as a single
normal component). -/
def UPath.withFileName (p : UPath) (name : String) : UPath :=
  if (p.fileName).isSome then ⟨p.abs, p.comps.dropLast ++ [Component.normal name]⟩
  else ⟨p.abs, p.comps ++ [Component.normal name]⟩

/-- The index of the last `.` occurring at position ≥ 1 of the character
list, if any: the split point between `Path::file_stem` and
`Path::extension` (a leading dot does not start an extension). -/
def lastDotIdx (cs : List Char) : Option Nat :=
  (List.range cs.length).reverse.find? fun i =>
    decide (1 ≤ i) && decide (cs.get? i = some '.')

/-- `Path::file_stem` of a file name: everything before the final `.`,
where a dot at position 0 does not count. -/
def stemOf (name : String) : String :=
  match lastDotIdx name.toList with
  | some i => String.mk (name.toList.take i)
  | none => name

/-- `Path::with_extension` / `PathBuf::set_extension`: no-op when there is
no file name; otherwise the file name becomes the stem, followed by
`.ext` when `ext` is nonempty. -/
def UPath.withExtension (p : UPath) (ext : String) : UPath :=
  match p.fileName with
  | none => p
  | some name =>
      p.withFileName (stemOf name ++ (if ext.isEmpty then "" else "." ++ ext))

/-- Data stored at a path: the byte content (modelled as a string) and the
permission bits. -/
structure FileData where
  content : String
  perms : Nat
deriving DecidableEq

/-- The visible filesystem namespace: an association list from paths to
file data. -/
abbrev FS := List (UPath × FileData)

/-- Look up the file at a path. -/
def lookupFile : FS → UPath → Option FileData
  | [], _ => none
  | (q, d) :: rest, p => if q = p then some d else lookupFile rest p

/-- Delete a path from the filesystem. -/
def removeFile : FS → UPath → FS
  | [], _ => []
  | (q, d) :: rest, p =>
      if q = p then removeFile rest p else (q, d) :: removeFile rest p

/-- Create or overwrite the file at a path. -/
def setFile (fs : FS) (p : UPath) (d : FileData) : FS :=
  (p, d) :: removeFile fs p

/-- Overwrite the content of an existing file, keeping its permissions
(what writing through the already-open write handle does).  Writing through
a handle whose file has been unlinked changes nothing visible. -/
def writeFile (fs : FS) (p : UPath) (c : String) : FS :=
  match lookupFile fs p with
  | some d => setFile fs p ⟨c, d.perms⟩
  | none => fs

/-- `std::fs::rename src dst`: fails when `src` does not exist; an injected
environment failure (`ok = false`) models EACCES/EXDEV-style OS refusals.
On success `dst` holds the data of `src` (overwriting any previous file
there, POSIX semantics) and `src` is gone; renaming a path onto itself is a
successful no-op. -/
def renameOp (fs : FS) (src dst : UPath) (ok : Bool) : Option FS :=
  match lookupFile fs src with
  | none => none
  | some d => if ok then some (setFile (removeFile fs src) dst d) else none

/-- `OpenErrorKind` from src/lib.rs (note: the enumeration has no
`SameFile` variant). -/
inductive OpenErrorKind where
  | Canonicalize
  | CurrentDir
  | EmptyBackup
  | GetMetadata
  | Mktemp
  | NoFilename
  | NoParent
  | Open
  | SetMetadata
deriving DecidableEq

/-- `OpenError`: a kind plus the optional underlying OS error (modelled
opaquely, only its presence matters). -/
structure OpenError where
  kind : OpenErrorKind
  source : Option Unit
deriving DecidableEq

def OpenError.get_metadata (e : Unit) : OpenError := ⟨OpenErrorKind.GetMetadata, some e⟩

def OpenError.set_metadata (e : Unit) : OpenError := ⟨OpenErrorKind.SetMetadata, some e⟩

def OpenError.no_parent : OpenError := ⟨OpenErrorKind.NoParent, none⟩

def OpenError.mktempErr (e : Unit) : OpenError := ⟨OpenErrorKind.Mktemp, some e⟩

def OpenError.canonicalize (e : Unit) : OpenError := ⟨OpenErrorKind.Canonicalize, some e⟩

def OpenError.cwdErr (e : Unit) : OpenError := ⟨OpenErrorKind.CurrentDir, some e⟩

def OpenError.openRead (e : Unit) : OpenError := ⟨OpenErrorKind.Open, some e⟩

def OpenError.empty_backup : OpenError := ⟨OpenErrorKind.EmptyBackup, none⟩

def OpenError.no_filename : OpenError := ⟨OpenErrorKind.NoFilename, none⟩

/-- `SaveErrorKind` from src/lib.rs. -/
inductive SaveErrorKind where
  | PersistTemp
  | SaveBackup
deriving DecidableEq

/-- `DiscardErrorKind` from src/lib.rs. -/
inductive DiscardErrorKind where
  | Rmtemp
deriving DecidableEq

/-- The `Backup` specifier enum from src/lib.rs.  `OsString` values are
modelled as strings forming a single path component. -/
inductive Backup where
  | Path : UPath → Backup
  | FileName : String → Backup
  | Extension : String → Backup
  | Append : String → Backup
deriving DecidableEq

/-- `Backup::apply` from src/lib.rs lines 207-239, verbatim: `Path` rejects
the empty path, `FileName` and `Append` reject empty strings, `Append`
additionally requires the edited path to have a file name, and `Extension`
performs no validation at all. -/
def Backup.apply (b : Backup) (path : UPath) : Except OpenError UPath :=
  match b with
  | Backup.Path p =>
      if p = UPath.empty then Except.error OpenError.empty_backup
      else Except.ok p
  | Backup.FileName fname =>
      if fname.isEmpty then Except.error OpenError.empty_backup
      else Except.ok (path.withFileName fname)
  | Backup.Extension ext => Except.ok (path.withExtension ext)
  | Backup.Append ext =>
      if ext.isEmpty then Except.error OpenError.empty_backup
      else
        match path.fileName with
        | some fname => Except.ok (path.withFileName (fname ++ ext))
        | none => Except.error OpenError.no_filename

/-- The `InPlace` builder from src/lib.rs. -/
structure InPlace where
  path : UPath
  backup : Option Backup
  follow_symlinks : Bool
deriving DecidableEq

/-- `InPlace::new`. -/
def InPlace.new (p : UPath) : InPlace := ⟨p, none, true⟩

/-- An open editing session, the `InPlaceFile` struct from src/lib.rs:
`reader` is the content readable through the read handle (a snapshot taken
through the file descriptor, unaffected by later unlinking), `writer` is
the path of the named temporary file owned by the session. -/
structure InPlaceFile where
  reader : String
  writer : UPath
  path : UPath
  backup_path : Option UPath
deriving DecidableEq

/-- Environment for `InPlace::open`: the OS answers it depends on.  `cwd`
is `std::env::current_dir()` (`none` = failure), `canon` the result of
canonicalizing the edited path when following symlinks (`none` = failure),
`tempName` the random name chosen by the tempfile builder, and the three
flags say whether temp-file creation, `set_permissions`, and opening the
edited file for reading succeed. -/
structure OpenEnv where
  cwd : Option UPath
  canon : Option UPath
  tempName : String
  mktempOk : Bool
  setPermOk : Bool
  readOk : Bool

/-- `absolutize` from src/lib.rs lines 637-644: keep an absolute path
as-is, otherwise prepend the current directory; no filesystem access
besides fetching the current directory. -/
def absolutize (p : UPath) (cwd : Option UPath) : Except OpenError UPath :=
  if p.isAbsolute then Except.ok p
  else
    match cwd with
    | none => Except.error (OpenError.cwdErr ())
    | some c => Except.ok (c.join p)

/-- Resolution of the edited path in `InPlace::open`: canonicalize when
following symlinks, `absolutize` otherwise. -/
def resolveEdited (ip : InPlace) (env : OpenEnv) : Except OpenError UPath :=
  if ip.follow_symlinks then
    match env.canon with
    | some p => Except.ok p
    | none => Except.error (OpenError.canonicalize ())
  else absolutize ip.path env.cwd

/-- Resolution of the backup path in `InPlace::open`: `Backup::apply` on
the resolved edited path, then `absolutize` (the backup path is not
canonicalized since it likely does not exist yet). -/
def resolveBackupPath (bkp : Option Backup) (path : UPath) (env : OpenEnv) :
    Except OpenError (Option UPath) :=
  match bkp with
  | none => Except.ok none
  | some b =>
      match b.apply path with
      | Except.error e => Except.error e
      | Except.ok bp =>
          match absolutize bp env.cwd with
          | Except.error e => Except.error e
          | Except.ok abp => Except.ok (some abp)

/-- The path of the temporary file created in `dir`: the chosen random name
behind the crate's fixed name lead-in. -/
def tempPathIn (dir : UPath) (name : String) : UPath :=
  ⟨dir.abs, dir.comps ++ [Component.normal ("._in_place-" ++ name)]⟩

/-- `InPlace::open` from src/lib.rs lines 165-187: resolve the edited
path, resolve the backup path, create the temporary file in the edited
path's parent directory (mode 600; fails if the name is taken, O_EXCL),
copy the edited file's permission bits to it (`copystats`; fetching the
metadata of a nonexistent edited path fails here with `GetMetadata`), and
open the edited file for reading.  Every error after the temporary file
was created drops the `NamedTempFile`, deleting the file again. -/
def InPlace.openFile (ip : InPlace) (env : OpenEnv) (fs : FS) :
    Except OpenError InPlaceFile × FS :=
  match resolveEdited ip env with
  | Except.error e => (Except.error e, fs)
  | Except.ok path =>
    match resolveBackupPath ip.backup path env with
    | Except.error e => (Except.error e, fs)
    | Except.ok backup_path =>
      match path.parent with
      | none => (Except.error OpenError.no_parent, fs)
      | some dir =>
        if env.mktempOk && (lookupFile fs (tempPathIn dir env.tempName)).isNone then
          match lookupFile (setFile fs (tempPathIn dir env.tempName) ⟨"", 384⟩) path with
          | none =>
              (Except.error (OpenError.get_metadata ()),
               removeFile (setFile fs (tempPathIn dir env.tempName) ⟨"", 384⟩)
                 (tempPathIn dir env.tempName))
          | some md =>
            if env.setPermOk then
              if env.readOk then
                (Except.ok ⟨md.content, tempPathIn dir env.tempName, path, backup_path⟩,
                 setFile (setFile fs (tempPathIn dir env.tempName) ⟨"", 384⟩)
                   (tempPathIn dir env.tempName) ⟨"", md.perms⟩)
              else
                (Except.error (OpenError.openRead ()),
                 removeFile
                   (setFile (setFile fs (tempPathIn dir env.tempName) ⟨"", 384⟩)
                     (tempPathIn dir env.tempName) ⟨"", md.perms⟩)
                   (tempPathIn dir env.tempName))
            else
              (Except.error (OpenError.set_metadata ()),
               removeFile (setFile fs (tempPathIn dir env.tempName) ⟨"", 384⟩)
                 (tempPathIn dir env.tempName))
        else (Except.error (OpenError.mktempErr ()), fs)

/-- Environment for `InPlaceFile::save`: whether the OS permits each of the
three renames it may attempt (edited path to backup path, temp file to
edited path, and the best-effort rollback of the backup). -/
structure SaveEnv where
  backupOk : Bool
  persistOk : Bool
  rollbackOk : Bool

/-- The all-permissive save environment (no OS failures injected). -/
def SaveEnv.allOk : SaveEnv := ⟨true, true, true⟩

/-- `InPlaceFile::save` from src/lib.rs lines 303-317: drop the reader (no
filesystem effect), rename the edited path to the backup path when one is
configured (failure aborts with `SaveBackup`), then persist the temp file
at the edited path via rename; if persisting fails with a backup in place,
attempt one rename of the backup back, ignoring its outcome, and report
`PersistTemp`.  `save` consumes the session, so on every error return the
owned `NamedTempFile` is dropped and the temporary file is deleted. -/
def InPlaceFile.save (s : InPlaceFile) (env : SaveEnv) (fs : FS) :
    Except SaveErrorKind Unit × FS :=
  match s.backup_path with
  | some bp =>
    match renameOp fs s.path bp env.backupOk with
    | none => (Except.error SaveErrorKind.SaveBackup, removeFile fs s.writer)
    | some fs1 =>
      match renameOp fs1 s.writer s.path env.persistOk with
      | some fs2 => (Except.ok (), fs2)
      | none =>
        match renameOp fs1 bp s.path env.rollbackOk with
        | some f => (Except.error SaveErrorKind.PersistTemp, removeFile f s.writer)
        | none => (Except.error SaveErrorKind.PersistTemp, removeFile fs1 s.writer)
  | none =>
    match renameOp fs s.writer s.path env.persistOk with
    | some fs1 => (Except.ok (), fs1)
    | none => (Except.error SaveErrorKind.PersistTemp, removeFile fs s.writer)

/-- `InPlaceFile::discard` from src/lib.rs lines 325-327: close and delete
the temporary file; if the deletion fails the temp file stays and the error
has kind `Rmtemp`.  Nothing else is touched. -/
def InPlaceFile.discard (s : InPlaceFile) (rmOk : Bool) (fs : FS) :
    Except DiscardErrorKind Unit × FS :=
  if rmOk then (Except.ok (), removeFile fs s.writer)
  else (Except.error DiscardErrorKind.Rmtemp, fs)

/-- Dropping an `InPlaceFile` without saving: same filesystem effect as
`discard`, with any error swallowed. -/
def InPlaceFile.dropDiscard (s : InPlaceFile) (rmOk : Bool) (fs : FS) : FS :=
  (s.discard rmOk fs).2

/-! ## Basic lemmas about the filesystem model -/

theorem lookupFile_removeFile_self (fs : FS) (p : UPath) :
    lookupFile (removeFile fs p) p = none := by
  induction fs with
  | nil => rfl
  | cons e rest ih =>
      obtain ⟨q, d⟩ := e
      by_cases h : q = p
      · simp [removeFile, h, ih]
      · simp [removeFile, lookupFile, h, ih]

theorem lookupFile_removeFile_ne (fs : FS) (p q : UPath) (h : q ≠ p) :
    lookupFile (removeFile fs p) q = lookupFile fs q := by
  induction fs with
  | nil => rfl
  | cons e rest ih =>
      obtain ⟨r, d⟩ := e
      by_cases hr : r = p
      · subst hr
        have : ¬ (r = q) := fun hc => h (hc ▸ rfl)
        simp [removeFile, lookupFile, this, ih]
      · by_cases hq : r = q
        · simp [removeFile, lookupFile, hr, hq, h]
        · simp [removeFile, lookupFile, hr, hq, ih]

theorem lookupFile_setFile_self (fs : FS) (p : UPath) (d : FileData) :
    lookupFile (setFile fs p d) p = some d := by
  simp [setFile, lookupFile]

theorem lookupFile_setFile_ne (fs : FS) (p q : UPath) (d : FileData) (h : q ≠ p) :
    lookupFile (setFile fs p d) q = lookupFile fs q := by
  have : ¬ (p = q) := fun hc => h hc.symm
  simp [setFile, lookupFile, this, lookupFile_removeFile_ne fs p q h]

theorem removeFile_of_lookup_none (fs : FS) (p : UPath)
    (h : lookupFile fs p = none) : removeFile fs p = fs := by
  induction fs with
  | nil => rfl
  | cons e rest ih =>
      obtain ⟨q, d⟩ := e
      by_cases hq : q = p
      · simp [lookupFile, hq] at h
      · simp [lookupFile, hq] at h
        simp [removeFile, hq, ih h]

theorem removeFile_removeFile (fs : FS) (p : UPath) :
    removeFile (removeFile fs p) p = removeFile fs p := by
  induction fs with
  | nil => rfl
  | cons e rest ih =>
      obtain ⟨q, d⟩ := e
      by_cases hq : q = p
      · simp [removeFile, hq, ih]
      · simp [removeFile, hq, ih]

theorem removeFile_setFile (fs : FS) (p : UPath) (d : FileData) :
    removeFile (setFile fs p d) p = removeFile fs p := by
  simp [setFile, removeFile, removeFile_removeFile]

theorem renameOp_of_lookup (fs : FS) (src dst : UPath) (d : FileData)
    (h : lookupFile fs src = some d) :
    renameOp fs src dst true = some (setFile (removeFile fs src) dst d) := by
  simp [renameOp, h]

theorem renameOp_refused (fs : FS) (src dst : UPath) :
    renameOp fs src dst false = none := by
  cases h : lookupFile fs src <;> simp [renameOp, h]

theorem renameOp_of_missing (fs : FS) (src dst : UPath) (ok : Bool)
    (h : lookupFile fs src = none) :
    renameOp fs src dst ok = none := by
  simp [renameOp, h]

theorem withFileName_abs (p : UPath) (n : String) :
    (p.withFileName n).abs = p.abs := by
  unfold UPath.withFileName
  split <;> rfl

theorem withExtension_abs (p : UPath) (e : String) :
    (p.withExtension e).abs = p.abs := by
  unfold UPath.withExtension
  cases h : p.fileName with
  | none => rfl
  | some n => simp [withFileName_abs]

theorem parent_of_comps_ne (p : UPath) (h : p.comps ≠ []) :
    p.parent = some ⟨p.abs, p.comps.dropLast⟩ := by
  unfold UPath.parent
  cases hc : p.comps with
  | nil => exact absurd hc h
  | cons x xs => rfl

/-! ## Concrete values used by witnesses and counterexamples -/

/-- A concrete directory `/d`. -/
def dirW : UPath := ⟨true, [Component.normal "d"]⟩

/-- A concrete edited path `/d/f.txt`. -/
def pathW : UPath := ⟨true, [Component.normal "d", Component.normal "f.txt"]⟩

/-- The temporary file created next to `pathW` with random name `t`. -/
def tmpW : UPath := tempPathIn dirW "t"

/-- A concrete backup path `/d/b.txt`. -/
def bkpW : UPath := ⟨true, [Component.normal "d", Component.normal "b.txt"]⟩

/-- A concrete open environment with every OS call succeeding. -/
def envW : OpenEnv := ⟨none, none, "t", true, true, true⟩

/-! ## Claim C8: empty-backup and no-filename validation -/

/-- C8: for every (absolute) edited path, `InPlace::open` fails with kind
`EmptyBackup` when the configured backup is a `Backup::Path`,
`Backup::FileName`, or `Backup::Append` whose value is empty, and with kind
`NoFilename` when the backup is a `Backup::Append` with nonempty suffix but
the edited path has no filename component; all four errors carry no
underlying OS error and leave the filesystem unchanged. -/
theorem open_backup_validation_errors (p : UPath) (env : OpenEnv) (fs : FS)
    (hAbs : p.isAbsolute = true) :
    (InPlace.openFile ⟨p, some (Backup.Path UPath.empty), false⟩ env fs
      = (Except.error ⟨OpenErrorKind.EmptyBackup, none⟩, fs))
  ∧ (InPlace.openFile ⟨p, some (Backup.FileName ""), false⟩ env fs
      = (Except.error ⟨OpenErrorKind.EmptyBackup, none⟩, fs))
  ∧ (InPlace.openFile ⟨p, some (Backup.Append ""), false⟩ env fs
      = (Except.error ⟨OpenErrorKind.EmptyBackup, none⟩, fs))
  ∧ (∀ sfx : String, sfx ≠ "" → p.fileName = none →
      InPlace.openFile ⟨p, some (Backup.Append sfx), false⟩ env fs
      = (Except.error ⟨OpenErrorKind.NoFilename, none⟩, fs)) := by
  refine ⟨?_, ?_, ?_, ?_⟩
  · simp [InPlace.openFile, resolveEdited, resolveBackupPath, absolutize,
      Backup.apply, hAbs, OpenError.empty_backup]
  · simp [InPlace.openFile, resolveEdited, resolveBackupPath, absolutize,
      Backup.apply, hAbs, OpenError.empty_backup, String.isEmpty_iff]
  · simp [InPlace.openFile, resolveEdited, resolveBackupPath, absolutize,
      Backup.apply, hAbs, OpenError.empty_backup, String.isEmpty_iff]
  · intro sfx hsfx hfn
    simp [InPlace.openFile, resolveEdited, resolveBackupPath, absolutize,
      Backup.apply, hAbs, hfn, String.isEmpty_iff, hsfx, OpenError.no_filename]

/-- Witness for C8 at the root path `/` (which has no filename). -/
theorem open_backup_validation_errors_witness :
    ((⟨true, []⟩ : UPath).isAbsolute = true)
  ∧ (InPlace.openFile ⟨⟨true, []⟩, some (Backup.Append "~"), false⟩ envW []
      = (Except.error ⟨OpenErrorKind.NoFilename, none⟩, [])) :=
  ⟨by decide,
   (open_backup_validation_errors ⟨true, []⟩ envW [] (by decide)).2.2.2 "~"
     (by decide) (by decide)⟩

/-! ## Claim C10: `Backup::Extension` is never validated for emptiness -/

/-- C10: `Backup::apply` accepts an `Extension` specifier for every value,
including the empty one — it is the only variant without an emptiness
check — and the resolved backup path is the edited path with its extension
replaced per `Path::with_extension` (removed, for the empty value);
`InPlace::open` therefore succeeds with an `Extension ""` backup and
records the extension-stripped path as the session's backup path. -/
theorem extension_backup_never_rejected (p : UPath) (env : OpenEnv) (fs : FS)
    (d : FileData)
    (hAbs : p.isAbsolute = true)
    (hpar : p.comps ≠ [])
    (hfile : lookupFile fs p = some d)
    (hmk : env.mktempOk = true) (hsp : env.setPermOk = true) (hrd : env.readOk = true)
    (hfresh : lookupFile fs (tempPathIn ⟨p.abs, p.comps.dropLast⟩ env.tempName) = none)
    (hne : tempPathIn ⟨p.abs, p.comps.dropLast⟩ env.tempName ≠ p) :
    (∀ (q : UPath) (v : String),
        (Backup.Extension v).apply q = Except.ok (q.withExtension v))
  ∧ (InPlace.openFile ⟨p, some (Backup.Extension ""), false⟩ env fs
      = (Except.ok ⟨d.content, tempPathIn ⟨p.abs, p.comps.dropLast⟩ env.tempName, p,
           some (p.withExtension "")⟩,
         setFile (setFile fs (tempPathIn ⟨p.abs, p.comps.dropLast⟩ env.tempName) ⟨"", 384⟩)
           (tempPathIn ⟨p.abs, p.comps.dropLast⟩ env.tempName) ⟨"", d.perms⟩)) := by
  have hA : p.abs = true := hAbs
  have hA2 : (p.withExtension "").isAbsolute = true := by
    show (p.withExtension "").abs = true
    rw [withExtension_abs]; exact hA
  have hparent := parent_of_comps_ne p hpar
  have hlook : lookupFile
      (setFile fs (tempPathIn ⟨p.abs, p.comps.dropLast⟩ env.tempName) ⟨"", 384⟩) p
      = some d := by
    rw [lookupFile_setFile_ne _ _ _ _ (Ne.symm hne)]
    exact hfile
  constructor
  · intro q v
    simp [Backup.apply]
  · simp [InPlace.openFile, resolveEdited, resolveBackupPath, Backup.apply, absolutize,
      hAbs, hA2, hparent, hmk, hfresh, hsp, hrd, hlook]

/-- Witness for C10 at `/d/f.txt` with extension value `""`: the session's
backup path is `/d/f` (extension removed). -/
theorem extension_backup_never_rejected_witness :
    ((Backup.Extension "").apply pathW = Except.ok (pathW.withExtension ""))
  ∧ (InPlace.openFile ⟨pathW, some (Backup.Extension ""), false⟩ envW
        [(pathW, ⟨"A", 420⟩)]
      = (Except.ok ⟨"A", tmpW, pathW, some (pathW.withExtension "")⟩,
         setFile (setFile [(pathW, ⟨"A", 420⟩)] tmpW ⟨"", 384⟩) tmpW ⟨"", 420⟩)) :=
  ⟨(extension_backup_never_rejected pathW envW [(pathW, ⟨"A", 420⟩)] ⟨"A", 420⟩
      (by decide) (by decide) (by decide) rfl rfl rfl (by decide) (by decide)).1 pathW "",
   (extension_backup_never_rejected pathW envW [(pathW, ⟨"A", 420⟩)] ⟨"A", 420⟩
      (by decide) (by decide) (by decide) rfl rfl rfl (by decide) (by decide)).2⟩

/-! ## Claim C9: absolutization without existence check; missing target
reported as `GetMetadata` -/

/-- A concrete open environment whose current directory is `/d`. -/
def envC : OpenEnv := ⟨some dirW, none, "t", true, true, true⟩

/-- C9: with `follow_symlinks` false, the edited path is resolved by
`absolutize` — used as-is when absolute, prepended with the current
directory otherwise, never failing and consulting nothing else (in
particular no existence check) — and a nonexistent edited path whose
parent directory exists (temp-file creation succeeds there) is reported by
`InPlace::open` as an error of kind `GetMetadata` at the metadata-fetch
step, with the filesystem left unchanged. -/
theorem absolutize_no_check_and_get_metadata (p0 c rp : UPath) (env : OpenEnv)
    (fs : FS)
    (hcwd : env.cwd = some c)
    (hrp : rp = if p0.isAbsolute then p0 else c.join p0)
    (hmiss : lookupFile fs rp = none)
    (hpar : rp.comps ≠ [])
    (hmk : env.mktempOk = true)
    (hfresh : lookupFile fs (tempPathIn ⟨rp.abs, rp.comps.dropLast⟩ env.tempName) = none)
    (hne : tempPathIn ⟨rp.abs, rp.comps.dropLast⟩ env.tempName ≠ rp) :
    (∀ q : UPath, absolutize q (some c) = Except.ok (if q.isAbsolute then q else c.join q))
  ∧ InPlace.openFile ⟨p0, none, false⟩ env fs
      = (Except.error (OpenError.get_metadata ()), fs) := by
  have hparent := parent_of_comps_ne rp hpar
  have hres : resolveEdited ⟨p0, none, false⟩ env = Except.ok rp := by
    by_cases hq : p0.isAbsolute = true
    · simp [resolveEdited, absolutize, hcwd, hq, hrp]
    · simp [resolveEdited, absolutize, hcwd, hq, hrp]
  have hlook2 : lookupFile
      (setFile fs (tempPathIn ⟨rp.abs, rp.comps.dropLast⟩ env.tempName) ⟨"", 384⟩) rp
      = none := by
    rw [lookupFile_setFile_ne _ _ _ _ (Ne.symm hne)]
    exact hmiss
  have hrm : removeFile
      (setFile fs (tempPathIn ⟨rp.abs, rp.comps.dropLast⟩ env.tempName) ⟨"", 384⟩)
      (tempPathIn ⟨rp.abs, rp.comps.dropLast⟩ env.tempName) = fs := by
    rw [removeFile_setFile]
    exact removeFile_of_lookup_none fs _ hfresh
  constructor
  · intro q
    by_cases hq : q.isAbsolute = true
    · simp [absolutize, hq]
    · simp [absolutize, hq]
  · simp [InPlace.openFile, hres, resolveBackupPath, hparent, hmk, hfresh, hlook2, hrm]

/-- Witness for C9: relative path `f` with cwd `/d` resolves to `/d/f`,
which does not exist, and open reports `GetMetadata`. -/
theorem absolutize_no_check_and_get_metadata_witness :
    (lookupFile ([] : FS) ⟨true, [Component.normal "d", Component.normal "f"]⟩ = none)
  ∧ InPlace.openFile ⟨⟨false, [Component.normal "f"]⟩, none, false⟩ envC []
      = (Except.error (OpenError.get_metadata ()), []) :=
  ⟨rfl,
   (absolutize_no_check_and_get_metadata ⟨false, [Component.normal "f"]⟩ dirW
      ⟨true, [Component.normal "d", Component.normal "f"]⟩ envC []
      rfl (by decide) rfl (by decide) rfl rfl (by decide)).2⟩

/-! ## Claim C3: best-effort rollback after a failed persist -/

/-- C3: with a backup path configured, if the rename of the edited file to
the backup path succeeded but persisting the temporary file fails, `save`
attempts one rename of the backup back to the edited path, ignores the
outcome of that rollback (the reported error is `PersistTemp` whether the
rollback is permitted by the OS or not), restores the original content at
the edited path when the rollback succeeds, and otherwise leaves the
original content at the backup path; the temporary file is gone either
way. -/
theorem save_rollback_on_persist_failure (s : InPlaceFile) (bp : UPath) (fs : FS)
    (d : FileData) (rbOk : Bool)
    (hbp : s.backup_path = some bp)
    (horig : lookupFile fs s.path = some d)
    (hbp_ne_path : bp ≠ s.path)
    (htp_ne_path : s.writer ≠ s.path)
    (htp_ne_bp : s.writer ≠ bp) :
    ((s.save ⟨true, false, rbOk⟩ fs).1 = Except.error SaveErrorKind.PersistTemp)
  ∧ (lookupFile (s.save ⟨true, false, rbOk⟩ fs).2 s.writer = none)
  ∧ (lookupFile (s.save ⟨true, false, true⟩ fs).2 s.path = some d)
  ∧ (lookupFile (s.save ⟨true, false, true⟩ fs).2 bp = none)
  ∧ (lookupFile (s.save ⟨true, false, false⟩ fs).2 s.path = none)
  ∧ (lookupFile (s.save ⟨true, false, false⟩ fs).2 bp = some d) := by
  have h1 : renameOp fs s.path bp true = some (setFile (removeFile fs s.path) bp d) :=
    renameOp_of_lookup _ _ _ _ horig
  have hfs1bp : lookupFile (setFile (removeFile fs s.path) bp d) bp = some d :=
    lookupFile_setFile_self _ _ _
  have h2 : renameOp (setFile (removeFile fs s.path) bp d) bp s.path true
      = some (setFile (removeFile (setFile (removeFile fs s.path) bp d) bp) s.path d) :=
    renameOp_of_lookup _ _ _ _ hfs1bp
  have hsaveT : s.save ⟨true, false, true⟩ fs
      = (Except.error SaveErrorKind.PersistTemp,
         removeFile (setFile (removeFile (setFile (removeFile fs s.path) bp d) bp) s.path d)
           s.writer) := by
    simp [InPlaceFile.save, hbp, h1, renameOp_refused, h2]
  have hsaveF : s.save ⟨true, false, false⟩ fs
      = (Except.error SaveErrorKind.PersistTemp,
         removeFile (setFile (removeFile fs s.path) bp d) s.writer) := by
    simp [InPlaceFile.save, hbp, h1, renameOp_refused]
  refine ⟨?_, ?_, ?_, ?_, ?_, ?_⟩
  · cases rbOk
    · rw [hsaveF]
    · rw [hsaveT]
  · cases rbOk
    · rw [hsaveF]
      exact lookupFile_removeFile_self _ _
    · rw [hsaveT]
      exact lookupFile_removeFile_self _ _
  · rw [hsaveT]
    rw [lookupFile_removeFile_ne _ _ _ (Ne.symm htp_ne_path)]
    exact lookupFile_setFile_self _ _ _
  · rw [hsaveT]
    rw [lookupFile_removeFile_ne _ _ _ (Ne.symm htp_ne_bp)]
    rw [lookupFile_setFile_ne _ _ _ _ hbp_ne_path]
    exact lookupFile_removeFile_self _ _
  · rw [hsaveF]
    rw [lookupFile_removeFile_ne _ _ _ (Ne.symm htp_ne_path)]
    rw [lookupFile_setFile_ne _ _ _ _ (Ne.symm hbp_ne_path)]
    exact lookupFile_removeFile_self _ _
  · rw [hsaveF]
    rw [lookupFile_removeFile_ne _ _ _ (Ne.symm htp_ne_bp)]
    exact lookupFile_setFile_self _ _ _

/-- Witness for C3: original `/d/f.txt` holding `"A"`, temp holding `"B"`,
persist refused, rollback permitted: error is `PersistTemp` and `"A"` is
back at the edited path. -/
theorem save_rollback_on_persist_failure_witness :
    ((InPlaceFile.save ⟨"A", tmpW, pathW, some bkpW⟩ ⟨true, false, true⟩
        [(pathW, ⟨"A", 420⟩), (tmpW, ⟨"B", 420⟩)]).1
      = Except.error SaveErrorKind.PersistTemp)
  ∧ (lookupFile (InPlaceFile.save ⟨"A", tmpW, pathW, some bkpW⟩ ⟨true, false, true⟩
        [(pathW, ⟨"A", 420⟩), (tmpW, ⟨"B", 420⟩)]).2 pathW = some ⟨"A", 420⟩) :=
  ⟨(save_rollback_on_persist_failure ⟨"A", tmpW, pathW, some bkpW⟩ bkpW
      [(pathW, ⟨"A", 420⟩), (tmpW, ⟨"B", 420⟩)] ⟨"A", 420⟩ true
      rfl (by decide) (by decide) (by decide) (by decide)).1,
   (save_rollback_on_persist_failure ⟨"A", tmpW, pathW, some bkpW⟩ bkpW
      [(pathW, ⟨"A", 420⟩), (tmpW, ⟨"B", 420⟩)] ⟨"A", 420⟩ true
      rfl (by decide) (by decide) (by decide) (by decide)).2.2.1⟩

/-! ## Claim C4: state after a failed rename-to-backup -/

/-- Counterexample to C4 as stated: when the rename to the backup path is
refused by the OS, `save` does return `SaveBackup` and leaves the edited
file untouched, but the temporary file is NOT left untouched — `save`
consumed the session, so the temp file (holding `"B"` before the call) is
deleted, exactly as the crate's `delete_backup` test observes. -/
theorem save_backup_failure_deletes_temp_cex :
    ((InPlaceFile.save ⟨"A", tmpW, pathW, some bkpW⟩ ⟨false, true, true⟩
        [(pathW, ⟨"A", 420⟩), (tmpW, ⟨"B", 420⟩)]).1
      = Except.error SaveErrorKind.SaveBackup)
  ∧ (lookupFile [(pathW, ⟨"A", 420⟩), (tmpW, ⟨"B", 420⟩)] tmpW = some ⟨"B", 420⟩)
  ∧ (lookupFile (InPlaceFile.save ⟨"A", tmpW, pathW, some bkpW⟩ ⟨false, true, true⟩
        [(pathW, ⟨"A", 420⟩), (tmpW, ⟨"B", 420⟩)]).2 tmpW = none)
  ∧ (lookupFile (InPlaceFile.save ⟨"A", tmpW, pathW, some bkpW⟩ ⟨false, true, true⟩
        [(pathW, ⟨"A", 420⟩), (tmpW, ⟨"B", 420⟩)]).2 pathW = some ⟨"A", 420⟩) :=
  ⟨rfl, by decide, by decide, by decide⟩

/-- C4 as amended: if the rename of the edited file to the backup path
fails, `save` aborts with kind `SaveBackup`; no rename has happened, so
every path other than the temporary file — in particular the edited path
and the backup path — is exactly as before, but the temporary file is
deleted because `save` consumed the session. -/
theorem save_backup_failure_state (s : InPlaceFile) (bp : UPath) (env : SaveEnv)
    (fs : FS)
    (hbp : s.backup_path = some bp)
    (hfail : renameOp fs s.path bp env.backupOk = none) :
    ((s.save env fs).1 = Except.error SaveErrorKind.SaveBackup)
  ∧ (lookupFile (s.save env fs).2 s.writer = none)
  ∧ (∀ q : UPath, q ≠ s.writer → lookupFile (s.save env fs).2 q = lookupFile fs q) := by
  have hs : s.save env fs = (Except.error SaveErrorKind.SaveBackup, removeFile fs s.writer) := by
    simp [InPlaceFile.save, hbp, hfail]
  refine ⟨by rw [hs], ?_, ?_⟩
  · rw [hs]
    exact lookupFile_removeFile_self _ _
  · intro q hq
    rw [hs]
    exact lookupFile_removeFile_ne _ _ _ hq

/-- Witness for the amended C4 at a concrete refused rename. -/
theorem save_backup_failure_state_witness :
    ((InPlaceFile.save ⟨"A", tmpW, pathW, some bkpW⟩ ⟨false, true, true⟩
        [(pathW, ⟨"A", 420⟩), (tmpW, ⟨"B", 420⟩)]).1
      = Except.error SaveErrorKind.SaveBackup)
  ∧ (lookupFile (InPlaceFile.save ⟨"A", tmpW, pathW, some bkpW⟩ ⟨false, true, true⟩
        [(pathW, ⟨"A", 420⟩), (tmpW, ⟨"B", 420⟩)]).2 tmpW = none) :=
  ⟨(save_backup_failure_state ⟨"A", tmpW, pathW, some bkpW⟩ bkpW ⟨false, true, true⟩
      [(pathW, ⟨"A", 420⟩), (tmpW, ⟨"B", 420⟩)] rfl (by decide)).1,
   (save_backup_failure_state ⟨"A", tmpW, pathW, some bkpW⟩ bkpW ⟨false, true, true⟩
      [(pathW, ⟨"A", 420⟩), (tmpW, ⟨"B", 420⟩)] rfl (by decide)).2.1⟩

/-! ## Claim C5: contents after a successful save with backup -/

/-- The full pipeline for the C5 counterexample: edit `/d/f.txt` (holding
`"A"`) with the backup spec `Backup::Path` naming the edited path itself —
a configuration the crate accepts (its `same_backup_path` test) — write
`"B"`, and save. -/
def openC5 : Except OpenError InPlaceFile × FS :=
  InPlace.openFile ⟨pathW, some (Backup.Path pathW), false⟩ envW [(pathW, ⟨"A", 420⟩)]

/-- Saving the session produced by `openC5` after writing `"B"`. -/
def saveC5 : Except SaveErrorKind Unit × FS :=
  InPlaceFile.save ⟨"A", tmpW, pathW, some pathW⟩ SaveEnv.allOk
    (writeFile openC5.2 tmpW "B")

/-- Counterexample to C5 as stated: a session opened with a backup
specification (`Backup::Path` naming the edited path itself) saves
successfully, yet the backup path ends up holding the newly written `"B"`,
not the original `"A"`. -/
theorem save_backup_same_path_cex :
    (openC5.1 = Except.ok ⟨"A", tmpW, pathW, some pathW⟩)
  ∧ (saveC5.1 = Except.ok ())
  ∧ ((⟨"A", tmpW, pathW, some pathW⟩ : InPlaceFile).backup_path = some pathW)
  ∧ (lookupFile saveC5.2 pathW = some ⟨"B", 420⟩) :=
  ⟨rfl, rfl, rfl, by decide⟩

/-- C5 as amended: for a session with a configured backup path distinct
from the edited path, if `save` succeeds then the edited path holds
exactly the temp file's data (the newly written bytes) and the backup path
holds exactly the original file's data, regardless of what was previously
at the backup path. -/
theorem save_backup_invariant (s : InPlaceFile) (bp : UPath) (env : SaveEnv)
    (fs : FS) (d t : FileData)
    (hbp : s.backup_path = some bp)
    (hbp_ne : bp ≠ s.path)
    (horig : lookupFile fs s.path = some d)
    (htemp : lookupFile fs s.writer = some t)
    (htp_ne_path : s.writer ≠ s.path)
    (htp_ne_bp : s.writer ≠ bp)
    (hok : (s.save env fs).1 = Except.ok ()) :
    (lookupFile (s.save env fs).2 s.path = some t)
  ∧ (lookupFile (s.save env fs).2 bp = some d) := by
  cases hbo : env.backupOk with
  | false =>
    exfalso
    have hs : (s.save env fs).1 = Except.error SaveErrorKind.SaveBackup := by
      simp [InPlaceFile.save, hbp, hbo, renameOp_refused]
    rw [hs] at hok
    exact Except.noConfusion hok
  | true =>
    have h1 : renameOp fs s.path bp env.backupOk
        = some (setFile (removeFile fs s.path) bp d) := by
      rw [hbo]
      exact renameOp_of_lookup _ _ _ _ horig
    have htw1 : lookupFile (setFile (removeFile fs s.path) bp d) s.writer = some t := by
      rw [lookupFile_setFile_ne _ _ _ _ htp_ne_bp,
        lookupFile_removeFile_ne _ _ _ htp_ne_path]
      exact htemp
    cases hpo : env.persistOk with
    | false =>
      exfalso
      cases hro : renameOp (setFile (removeFile fs s.path) bp d) bp s.path env.rollbackOk with
      | none =>
        have hs : (s.save env fs).1 = Except.error SaveErrorKind.PersistTemp := by
          simp [InPlaceFile.save, hbp, h1, hpo, renameOp_refused, hro]
        rw [hs] at hok
        exact Except.noConfusion hok
      | some f =>
        have hs : (s.save env fs).1 = Except.error SaveErrorKind.PersistTemp := by
          simp [InPlaceFile.save, hbp, h1, hpo, renameOp_refused, hro]
        rw [hs] at hok
        exact Except.noConfusion hok
    | true =>
      have h2 : renameOp (setFile (removeFile fs s.path) bp d) s.writer s.path env.persistOk
          = some (setFile (removeFile (setFile (removeFile fs s.path) bp d) s.writer)
              s.path t) := by
        rw [hpo]
        exact renameOp_of_lookup _ _ _ _ htw1
      have hs : s.save env fs
          = (Except.ok (),
             setFile (removeFile (setFile (removeFile fs s.path) bp d) s.writer)
               s.path t) := by
        simp [InPlaceFile.save, hbp, h1, h2]
      constructor
      · rw [hs]
        exact lookupFile_setFile_self _ _ _
      · rw [hs]
        rw [lookupFile_setFile_ne _ _ _ _ hbp_ne,
          lookupFile_removeFile_ne _ _ _ (Ne.symm htp_ne_bp)]
        exact lookupFile_setFile_self _ _ _

/-- Witness for the amended C5: `/d/f.txt` holding `"A"` is saved with
temp content `"B"` and backup path `/d/b.txt`; afterwards the edited path
holds `"B"` and the backup path the original `"A"`. -/
theorem save_backup_invariant_witness :
    (lookupFile (InPlaceFile.save ⟨"A", tmpW, pathW, some bkpW⟩ SaveEnv.allOk
        [(pathW, ⟨"A", 420⟩), (tmpW, ⟨"B", 420⟩)]).2 pathW = some ⟨"B", 420⟩)
  ∧ (lookupFile (InPlaceFile.save ⟨"A", tmpW, pathW, some bkpW⟩ SaveEnv.allOk
        [(pathW, ⟨"A", 420⟩), (tmpW, ⟨"B", 420⟩)]).2 bkpW = some ⟨"A", 420⟩) :=
  save_backup_invariant ⟨"A", tmpW, pathW, some bkpW⟩ bkpW SaveEnv.allOk
    [(pathW, ⟨"A", 420⟩), (tmpW, ⟨"B", 420⟩)] ⟨"A", 420⟩ ⟨"B", 420⟩
    rfl (by decide) (by decide) (by decide) (by decide) (by decide) rfl

/-! ## Claim C6: what discard (and implicit drop) touches -/

/-- Counterexample to C6 as stated: a session whose configured backup path
already holds a file (`"P"`) before discard.  Discard succeeds, but a file
IS left at the backup path afterwards (discard never removes it), refuting
the literal "no file is left at the backup path". -/
theorem discard_backup_path_file_cex :
    ((InPlaceFile.discard ⟨"A", tmpW, pathW, some bkpW⟩ true
        [(pathW, ⟨"A", 420⟩), (bkpW, ⟨"P", 420⟩), (tmpW, ⟨"B", 420⟩)]).1 = Except.ok ())
  ∧ (lookupFile (InPlaceFile.discard ⟨"A", tmpW, pathW, some bkpW⟩ true
        [(pathW, ⟨"A", 420⟩), (bkpW, ⟨"P", 420⟩), (tmpW, ⟨"B", 420⟩)]).2 bkpW
      = some ⟨"P", 420⟩) :=
  ⟨rfl, by decide⟩

/-- C6 as amended: `discard` (and the implicit discard performed when the
session is dropped, with its error swallowed) only closes handles and
deletes the temporary file: every other path — in particular the edited
file's content and metadata — is unchanged, no file is *created* at the
backup path (a path empty before stays empty; a pre-existing file there is
simply left alone), and discard fails, with kind `Rmtemp` and the
filesystem untouched, exactly when deleting the temporary file fails. -/
theorem discard_only_removes_temp (s : InPlaceFile) (fs : FS)
    (hp_ne : s.path ≠ s.writer) :
    ((s.discard true fs).1 = Except.ok ())
  ∧ (lookupFile (s.discard true fs).2 s.writer = none)
  ∧ (∀ q : UPath, q ≠ s.writer → lookupFile (s.discard true fs).2 q = lookupFile fs q)
  ∧ (lookupFile (s.discard true fs).2 s.path = lookupFile fs s.path)
  ∧ (∀ bp : UPath, s.backup_path = some bp → lookupFile fs bp = none →
       lookupFile (s.discard true fs).2 bp = none)
  ∧ (s.discard false fs = (Except.error DiscardErrorKind.Rmtemp, fs))
  ∧ (∀ b : Bool, lookupFile (s.dropDiscard b fs) s.path = lookupFile fs s.path) := by
  refine ⟨rfl, ?_, ?_, ?_, ?_, rfl, ?_⟩
  · exact lookupFile_removeFile_self _ _
  · intro q hq
    exact lookupFile_removeFile_ne _ _ _ hq
  · exact lookupFile_removeFile_ne _ _ _ hp_ne
  · intro bp _ hnone
    by_cases hbq : bp = s.writer
    · subst hbq
      exact lookupFile_removeFile_self _ _
    · rw [show (s.discard true fs).2 = removeFile fs s.writer from rfl,
        lookupFile_removeFile_ne _ _ _ hbq]
      exact hnone
  · intro b
    cases b
    · rfl
    · exact lookupFile_removeFile_ne _ _ _ hp_ne

/-- Witness for the amended C6 at a concrete session: discard succeeds,
the temp file is gone, and the edited file is untouched. -/
theorem discard_only_removes_temp_witness :
    ((InPlaceFile.discard ⟨"A", tmpW, pathW, some bkpW⟩ true
        [(pathW, ⟨"A", 420⟩), (tmpW, ⟨"B", 420⟩)]).1 = Except.ok ())
  ∧ (lookupFile (InPlaceFile.discard ⟨"A", tmpW, pathW, some bkpW⟩ true
        [(pathW, ⟨"A", 420⟩), (tmpW, ⟨"B", 420⟩)]).2 pathW
      = lookupFile [(pathW, ⟨"A", 420⟩), (tmpW, ⟨"B", 420⟩)] pathW) :=
  ⟨(discard_only_removes_temp ⟨"A", tmpW, pathW, some bkpW⟩
      [(pathW, ⟨"A", 420⟩), (tmpW, ⟨"B", 420⟩)] (by decide)).1,
   (discard_only_removes_temp ⟨"A", tmpW, pathW, some bkpW⟩
      [(pathW, ⟨"A", 420⟩), (tmpW, ⟨"B", 420⟩)] (by decide)).2.2.2.1⟩

/-! ## Claim C7: the edited file is deleted externally between open and
save -/

/-- C7: starting from any filesystem in which the edited path has been
removed by an external actor (while the temp file still exists): with no
backup configured, `save` succeeds and the temp file's data becomes the
new file at the edited path; with a backup configured, `save` fails with
kind `SaveBackup` and no file has been renamed — every path other than the
temp file is exactly as it was after the external deletion, and the temp
file is gone (deleted, not moved). -/
theorem save_after_external_delete (p tp bp : UPath) (c : String) (t : FileData)
    (fs : FS)
    (htp_ne_p : tp ≠ p)
    (htemp : lookupFile fs tp = some t) :
    ((InPlaceFile.save ⟨c, tp, p, none⟩ SaveEnv.allOk (removeFile fs p)).1
      = Except.ok ())
  ∧ (lookupFile (InPlaceFile.save ⟨c, tp, p, none⟩ SaveEnv.allOk (removeFile fs p)).2 p
      = some t)
  ∧ ((InPlaceFile.save ⟨c, tp, p, some bp⟩ SaveEnv.allOk (removeFile fs p)).1
      = Except.error SaveErrorKind.SaveBackup)
  ∧ (∀ q : UPath, q ≠ tp →
      lookupFile (InPlaceFile.save ⟨c, tp, p, some bp⟩ SaveEnv.allOk (removeFile fs p)).2 q
        = lookupFile (removeFile fs p) q)
  ∧ (lookupFile (InPlaceFile.save ⟨c, tp, p, some bp⟩ SaveEnv.allOk (removeFile fs p)).2 tp
      = none) := by
  have htx : lookupFile (removeFile fs p) tp = some t := by
    rw [lookupFile_removeFile_ne _ _ _ htp_ne_p]
    exact htemp
  have hpx : lookupFile (removeFile fs p) p = none := lookupFile_removeFile_self _ _
  have h1 : renameOp (removeFile fs p) tp p true
      = some (setFile (removeFile (removeFile fs p) tp) p t) :=
    renameOp_of_lookup _ _ _ _ htx
  have hsave0 : InPlaceFile.save ⟨c, tp, p, none⟩ SaveEnv.allOk (removeFile fs p)
      = (Except.ok (), setFile (removeFile (removeFile fs p) tp) p t) := by
    simp [InPlaceFile.save, SaveEnv.allOk, h1]
  have hfailB : renameOp (removeFile fs p) p bp SaveEnv.allOk.backupOk = none :=
    renameOp_of_missing _ _ _ _ hpx
  have hsaveB : InPlaceFile.save ⟨c, tp, p, some bp⟩ SaveEnv.allOk (removeFile fs p)
      = (Except.error SaveErrorKind.SaveBackup, removeFile (removeFile fs p) tp) := by
    simp [InPlaceFile.save, hfailB]
  refine ⟨?_, ?_, ?_, ?_, ?_⟩
  · rw [hsave0]
  · rw [hsave0]
    exact lookupFile_setFile_self _ _ _
  · rw [hsaveB]
  · intro q hq
    rw [hsaveB]
    exact lookupFile_removeFile_ne _ _ _ hq
  · rw [hsaveB]
    exact lookupFile_removeFile_self _ _

/-- Witness for C7: concrete run with `/d/f.txt` deleted externally and
temp content `"B"`: the no-backup save installs `"B"` at the edited path;
the with-backup save fails with `SaveBackup`. -/
theorem save_after_external_delete_witness :
    (lookupFile (InPlaceFile.save ⟨"A", tmpW, pathW, none⟩ SaveEnv.allOk
        (removeFile [(pathW, ⟨"A", 420⟩), (tmpW, ⟨"B", 420⟩)] pathW)).2 pathW
      = some ⟨"B", 420⟩)
  ∧ ((InPlaceFile.save ⟨"A", tmpW, pathW, some bkpW⟩ SaveEnv.allOk
        (removeFile [(pathW, ⟨"A", 420⟩), (tmpW, ⟨"B", 420⟩)] pathW)).1
      = Except.error SaveErrorKind.SaveBackup) :=
  ⟨(save_after_external_delete pathW tmpW bkpW "A" ⟨"B", 420⟩
      [(pathW, ⟨"A", 420⟩), (tmpW, ⟨"B", 420⟩)] (by decide) (by decide)).2.1,
   (save_after_external_delete pathW tmpW bkpW "A" ⟨"B", 420⟩
      [(pathW, ⟨"A", 420⟩), (tmpW, ⟨"B", 420⟩)] (by decide) (by decide)).2.2.1⟩

/-! ## Claim C1: there is no same-file rejection -/

/-- Counterexample to C1 as stated: a `Backup::Path` specifier naming the
edited path itself — trivially the same filesystem identity — is accepted
by `InPlace::open`, which returns a session rather than failing; indeed
the code's `OpenErrorKind` enumeration has no `SameFile` variant at all. -/
theorem open_same_file_backup_cex :
    (InPlace.openFile ⟨pathW, some (Backup.Path pathW), false⟩ envW
        [(pathW, ⟨"A", 420⟩)]).1
      = Except.ok ⟨"A", tmpW, pathW, some pathW⟩ :=
  rfl

/-- C1 as amended: `InPlace::open` performs no same-file check (and no
`SameFile` error kind exists): a backup specifier resolving to the edited
path itself is accepted, and — as the crate documents — the net effect of
saving such a session is exactly that of a session with no backup
configured: save succeeds and every path holds the same data it would hold
after a no-backup save. -/
theorem same_path_backup_no_check (p tp : UPath) (c : String) (fs : FS)
    (d t : FileData)
    (horig : lookupFile fs p = some d)
    (htemp : lookupFile fs tp = some t)
    (htp_ne : tp ≠ p) :
    (∀ (q : UPath) (env : OpenEnv) (fs2 : FS) (e : FileData),
        q.isAbsolute = true → q.comps ≠ [] → q ≠ UPath.empty →
        env.mktempOk = true → env.setPermOk = true → env.readOk = true →
        lookupFile fs2 q = some e →
        lookupFile fs2 (tempPathIn ⟨q.abs, q.comps.dropLast⟩ env.tempName) = none →
        tempPathIn ⟨q.abs, q.comps.dropLast⟩ env.tempName ≠ q →
        (InPlace.openFile ⟨q, some (Backup.Path q), false⟩ env fs2).1
          = Except.ok ⟨e.content, tempPathIn ⟨q.abs, q.comps.dropLast⟩ env.tempName,
              q, some q⟩)
  ∧ ((InPlaceFile.save ⟨c, tp, p, some p⟩ SaveEnv.allOk fs).1 = Except.ok ())
  ∧ (∀ q : UPath,
      lookupFile (InPlaceFile.save ⟨c, tp, p, some p⟩ SaveEnv.allOk fs).2 q
        = lookupFile (InPlaceFile.save ⟨c, tp, p, none⟩ SaveEnv.allOk fs).2 q) := by
  have h1 : renameOp fs p p true = some (setFile (removeFile fs p) p d) :=
    renameOp_of_lookup _ _ _ _ horig
  have ht1 : lookupFile (setFile (removeFile fs p) p d) tp = some t := by
    rw [lookupFile_setFile_ne _ _ _ _ htp_ne, lookupFile_removeFile_ne _ _ _ htp_ne]
    exact htemp
  have h2 : renameOp (setFile (removeFile fs p) p d) tp p true
      = some (setFile (removeFile (setFile (removeFile fs p) p d) tp) p t) :=
    renameOp_of_lookup _ _ _ _ ht1
  have h3 : renameOp fs tp p true = some (setFile (removeFile fs tp) p t) :=
    renameOp_of_lookup _ _ _ _ htemp
  have hsave1 : InPlaceFile.save ⟨c, tp, p, some p⟩ SaveEnv.allOk fs
      = (Except.ok (), setFile (removeFile (setFile (removeFile fs p) p d) tp) p t) := by
    simp [InPlaceFile.save, SaveEnv.allOk, h1, h2]
  have hsave0 : InPlaceFile.save ⟨c, tp, p, none⟩ SaveEnv.allOk fs
      = (Except.ok (), setFile (removeFile fs tp) p t) := by
    simp [InPlaceFile.save, SaveEnv.allOk, h3]
  refine ⟨?_, ?_, ?_⟩
  · intro q env fs2 e hAbs hpar hqe hmk hsp hrd hfile hfresh hne
    have hA : q.abs = true := hAbs
    have hparent := parent_of_comps_ne q hpar
    have hlook : lookupFile
        (setFile fs2 (tempPathIn ⟨q.abs, q.comps.dropLast⟩ env.tempName) ⟨"", 384⟩) q
        = some e := by
      rw [lookupFile_setFile_ne _ _ _ _ (Ne.symm hne)]
      exact hfile
    simp [InPlace.openFile, resolveEdited, resolveBackupPath, Backup.apply, absolutize,
      hAbs, hqe, hparent, hmk, hfresh, hsp, hrd, hlook]
  · rw [hsave1]
  · intro q
    rw [hsave1, hsave0]
    by_cases hqp : q = p
    · subst hqp
      rw [lookupFile_setFile_self, lookupFile_setFile_self]
    · rw [lookupFile_setFile_ne _ _ _ _ hqp, lookupFile_setFile_ne _ _ _ _ hqp]
      by_cases hqt : q = tp
      · subst hqt
        rw [lookupFile_removeFile_self, lookupFile_removeFile_self]
      · rw [lookupFile_removeFile_ne _ _ _ hqt, lookupFile_removeFile_ne _ _ _ hqt,
          lookupFile_setFile_ne _ _ _ _ hqp, lookupFile_removeFile_ne _ _ _ hqp]

/-- Witness for the amended C1: the concrete same-path session over
`/d/f.txt` saves successfully and agrees with the no-backup save at the
edited path. -/
theorem same_path_backup_no_check_witness :
    ((InPlaceFile.save ⟨"A", tmpW, pathW, some pathW⟩ SaveEnv.allOk
        [(pathW, ⟨"A", 420⟩), (tmpW, ⟨"B", 420⟩)]).1 = Except.ok ())
  ∧ (lookupFile (InPlaceFile.save ⟨"A", tmpW, pathW, some pathW⟩ SaveEnv.allOk
        [(pathW, ⟨"A", 420⟩), (tmpW, ⟨"B", 420⟩)]).2 pathW
      = lookupFile (InPlaceFile.save ⟨"A", tmpW, pathW, none⟩ SaveEnv.allOk
        [(pathW, ⟨"A", 420⟩), (tmpW, ⟨"B", 420⟩)]).2 pathW) :=
  ⟨(same_path_backup_no_check pathW tmpW "A"
      [(pathW, ⟨"A", 420⟩), (tmpW, ⟨"B", 420⟩)] ⟨"A", 420⟩ ⟨"B", 420⟩
      (by decide) (by decide) (by decide)).2.1,
   (same_path_backup_no_check pathW tmpW "A"
      [(pathW, ⟨"A", 420⟩), (tmpW, ⟨"B", 420⟩)] ⟨"A", 420⟩ ⟨"B", 420⟩
      (by decide) (by decide) (by decide)).2.2 pathW⟩

/-! ## Claim C2: verbatim copy round-trips the file content -/

/-- Inversion of a successful `InPlace::open`: the temporary file's name
was fresh, the session's reader holds the content of the edited file as
found after the temp file's creation, and the resulting filesystem is the
original one plus the (permission-copied, still empty) temp file. -/
theorem openFile_ok_inv (ip : InPlace) (env : OpenEnv) (fs fs1 : FS)
    (s : InPlaceFile)
    (h : ip.openFile env fs = (Except.ok s, fs1)) :
    lookupFile fs s.writer = none
  ∧ ∃ md : FileData,
      lookupFile (setFile fs s.writer ⟨"", 384⟩) s.path = some md
    ∧ s.reader = md.content
    ∧ fs1 = setFile (setFile fs s.writer ⟨"", 384⟩) s.writer ⟨"", md.perms⟩ := by
  unfold InPlace.openFile at h
  cases hre : resolveEdited ip env with
  | error e => simp [hre] at h
  | ok path =>
    simp only [hre] at h
    cases hrb : resolveBackupPath ip.backup path env with
    | error e => simp [hrb] at h
    | ok bpo =>
      simp only [hrb] at h
      cases hpp : path.parent with
      | none => simp [hpp] at h
      | some dir =>
        simp only [hpp] at h
        by_cases hcond :
            (env.mktempOk && (lookupFile fs (tempPathIn dir env.tempName)).isNone) = true
        · rw [if_pos hcond] at h
          cases hmd : lookupFile (setFile fs (tempPathIn dir env.tempName) ⟨"", 384⟩) path with
          | none => simp [hmd] at h
          | some md =>
            simp only [hmd] at h
            by_cases hsp : env.setPermOk = true
            · rw [if_pos hsp] at h
              by_cases hrd : env.readOk = true
              · rw [if_pos hrd] at h
                rw [Prod.mk.injEq] at h
                obtain ⟨hs, hfs⟩ := h
                rw [Except.ok.injEq] at hs
                subst hs
                have hfresh : (lookupFile fs (tempPathIn dir env.tempName)).isNone = true :=
                  (Bool.and_eq_true _ _ |>.mp hcond).2
                refine ⟨Option.isNone_iff_eq_none.mp hfresh, md, hmd, rfl, hfs.symm⟩
              · rw [if_neg hrd] at h; simp at h
            · rw [if_neg hsp] at h; simp at h
        · rw [if_neg hcond] at h; simp at h

/-- C2: for every configuration whose open succeeds on an existing
readable target, copying all bytes read from the reader handle verbatim to
the writer handle and calling `save` succeeds and leaves the target file's
content byte-for-byte identical to its content before the edit. -/
theorem round_trip_save (ip : InPlace) (env : OpenEnv) (fs fs1 : FS)
    (s : InPlaceFile) (d : FileData)
    (hopen : ip.openFile env fs = (Except.ok s, fs1))
    (hfile : lookupFile fs s.path = some d)
    (hbp_ne_tp : s.backup_path ≠ some s.writer) :
    ((s.save SaveEnv.allOk (writeFile fs1 s.writer s.reader)).1 = Except.ok ())
  ∧ ((lookupFile (s.save SaveEnv.allOk (writeFile fs1 s.writer s.reader)).2 s.path).map
       FileData.content = some d.content) := by
  obtain ⟨hfresh, md, hmd, hrd, hfs1⟩ := openFile_ok_inv ip env fs fs1 s hopen
  have htp_ne_path : s.writer ≠ s.path := by
    intro he
    rw [he, hfile] at hfresh
    exact Option.noConfusion hfresh
  have hmd2 : lookupFile (setFile fs s.writer ⟨"", 384⟩) s.path = some d := by
    rw [lookupFile_setFile_ne _ _ _ _ (Ne.symm htp_ne_path)]
    exact hfile
  have hmdd : md = d := by
    rw [hmd] at hmd2
    exact Option.some.injEq _ _ |>.mp hmd2
  subst hmdd
  have hfs1tp : lookupFile fs1 s.writer = some ⟨"", md.perms⟩ := by
    rw [hfs1]
    exact lookupFile_setFile_self _ _ _
  have hw : writeFile fs1 s.writer s.reader
      = setFile fs1 s.writer ⟨md.content, md.perms⟩ := by
    unfold writeFile
    rw [hfs1tp, hrd]
  have hlookw : lookupFile (writeFile fs1 s.writer s.reader) s.writer
      = some ⟨md.content, md.perms⟩ := by
    rw [hw]
    exact lookupFile_setFile_self _ _ _
  have hlookp : lookupFile (writeFile fs1 s.writer s.reader) s.path = some md := by
    rw [hw, lookupFile_setFile_ne _ _ _ _ (Ne.symm htp_ne_path), hfs1,
      lookupFile_setFile_ne _ _ _ _ (Ne.symm htp_ne_path),
      lookupFile_setFile_ne _ _ _ _ (Ne.symm htp_ne_path)]
    exact hfile
  cases hbp : s.backup_path with
  | none =>
    have h3 : renameOp (writeFile fs1 s.writer s.reader) s.writer s.path true
        = some (setFile (removeFile (writeFile fs1 s.writer s.reader) s.writer) s.path
            ⟨md.content, md.perms⟩) :=
      renameOp_of_lookup _ _ _ _ hlookw
    have hsave : s.save SaveEnv.allOk (writeFile fs1 s.writer s.reader)
        = (Except.ok (),
           setFile (removeFile (writeFile fs1 s.writer s.reader) s.writer) s.path
             ⟨md.content, md.perms⟩) := by
      simp [InPlaceFile.save, hbp, SaveEnv.allOk, h3]
    rw [hsave]
    exact ⟨rfl, by rw [lookupFile_setFile_self]; rfl⟩
  | some bp =>
    have hbp_ne : bp ≠ s.writer := by
      intro he
      rw [hbp, he] at hbp_ne_tp
      exact hbp_ne_tp rfl
    have h1 : renameOp (writeFile fs1 s.writer s.reader) s.path bp true
        = some (setFile (removeFile (writeFile fs1 s.writer s.reader) s.path) bp md) :=
      renameOp_of_lookup _ _ _ _ hlookp
    have hlook3 : lookupFile
        (setFile (removeFile (writeFile fs1 s.writer s.reader) s.path) bp md) s.writer
        = some ⟨md.content, md.perms⟩ := by
      rw [lookupFile_setFile_ne _ _ _ _ (Ne.symm hbp_ne),
        lookupFile_removeFile_ne _ _ _ htp_ne_path]
      exact hlookw
    have h2 : renameOp
        (setFile (removeFile (writeFile fs1 s.writer s.reader) s.path) bp md)
        s.writer s.path true
        = some (setFile
            (removeFile
              (setFile (removeFile (writeFile fs1 s.writer s.reader) s.path) bp md)
              s.writer)
            s.path ⟨md.content, md.perms⟩) :=
      renameOp_of_lookup _ _ _ _ hlook3
    have hsave : s.save SaveEnv.allOk (writeFile fs1 s.writer s.reader)
        = (Except.ok (),
           setFile
             (removeFile
               (setFile (removeFile (writeFile fs1 s.writer s.reader) s.path) bp md)
               s.writer)
             s.path ⟨md.content, md.perms⟩) := by
      simp [InPlaceFile.save, hbp, SaveEnv.allOk, h1, h2]
    rw [hsave]
    exact ⟨rfl, by rw [lookupFile_setFile_self]; rfl⟩

/-- Witness for C2: the vowel-free no-backup pipeline over `/d/f.txt`
holding `"A"`: after opening, copying verbatim, and saving, the edited
path holds `"A"` again. -/
theorem round_trip_save_witness :
    (InPlace.openFile ⟨pathW, none, false⟩ envW [(pathW, ⟨"A", 420⟩)]
      = (Except.ok ⟨"A", tmpW, pathW, none⟩,
         setFile (setFile [(pathW, ⟨"A", 420⟩)] tmpW ⟨"", 384⟩) tmpW ⟨"", 420⟩))
  ∧ ((lookupFile
        ((InPlaceFile.save ⟨"A", tmpW, pathW, none⟩ SaveEnv.allOk
          (writeFile
            (setFile (setFile [(pathW, ⟨"A", 420⟩)] tmpW ⟨"", 384⟩) tmpW ⟨"", 420⟩)
            tmpW "A")).2) pathW).map FileData.content = some "A") :=
  ⟨rfl,
   (round_trip_save ⟨pathW, none, false⟩ envW [(pathW, ⟨"A", 420⟩)]
      (setFile (setFile [(pathW, ⟨"A", 420⟩)] tmpW ⟨"", 384⟩) tmpW ⟨"", 420⟩)
      ⟨"A", tmpW, pathW, none⟩ ⟨"A", 420⟩ rfl (by decide) (by decide)).2⟩

end InPlaceRs
